import Mathlib

/-!
Verification development for the log-parsing and time-windowed metrics engine
of `vdash` (`src/custom/app.rs`).

The Rust source is shallowly embedded: strings become `List Char` (all inputs
are ASCII, so Rust byte indices coincide with character indices), `u64`/`usize`
counters become `Nat`, `chrono` instants and durations become `Int`
(nanoseconds resp. seconds; only anchoring, ordering and arithmetic matter),
and stateful methods become functions returning the updated structure.
-/

/-- Model of Rust `str::find(pattern)`: index of the first occurrence of
`pat` as a contiguous substring of `s` (byte index = char index for ASCII). -/
def findSubstr (pat : List Char) : List Char → Option Nat
  | [] => if pat = [] then some 0 else none
  | c :: rest =>
    if pat.isPrefixOf (c :: rest) then some 0
    else (findSubstr pat rest).map (· + 1)

/-- Model of Rust `str::trim_start()`: drop leading whitespace. -/
def trimStart (s : List Char) : List Char := s.dropWhile Char.isWhitespace

/-- Model of Rust `str::splitn(1, " ")`: with a limit of 1 the iterator yields
the whole (unsplit) string as its single item. -/
def rustSplitn1 (s : List Char) : List (List Char) := [s]

/-- Model of Rust `str::parse::<usize>()`: an optional leading `+`, then one or
more ASCII digits and nothing else; overflow of 64-bit `usize` is an error.
Leading or trailing whitespace (or any other character) makes it fail. -/
def rustParseUsize (s : List Char) : Option Nat :=
  let t := if s.head? = some '+' then s.tail else s
  if t ≠ [] ∧ t.all Char.isDigit then
    let v := t.foldl (fun acc c => acc * 10 + (c.toNat - 48)) 0
    if v < 2 ^ 64 then some v else none
  else none

/-- Decimal rendering of a `Nat`, used for the `format!` diagnostics. -/
def natToStr (n : Nat) : List Char := (Nat.repr n).toList

/-- The ASCII apostrophe character, used inside `format!` diagnostics. -/
def quoteC : Char := Char.ofNat 39

/-- Add 1 to the last element of a list; models `buckets[buckets.len()-1] += 1`
(the Rust code indexes `len - 1`; after construction the list is never empty). -/
def incLast : List Nat → List Nat
  | [] => []
  | [x] => [x + 1]
  | x :: y :: rest => x :: incLast (y :: rest)

/-! ## BucketSet and TimelineSet (`app.rs` lines 366-464) -/

/-- One sliding-window histogram (`struct BucketSet`). -/
structure BucketSet where
  bucket_time : Option Int
  total_duration : Int
  bucket_duration : Int
  max_buckets : Nat
  buckets : List Nat
deriving DecidableEq

/-- `BucketSet::new(bucket_duration, max_buckets)` (`app.rs` 437-446). -/
def BucketSet.new (bucket_duration : Int) (max_buckets : Nat) : BucketSet :=
  { bucket_duration := bucket_duration
    max_buckets := max_buckets
    total_duration := bucket_duration * max_buckets
    bucket_time := none
    buckets := [0] }

/-- One iteration body of the while loop in `update_current_time`
(`app.rs` 410-419): push a zero bucket, and drop the oldest if the count now
exceeds `max_buckets`. -/
def pushEvict (maxb : Nat) (bks : List Nat) : List Nat :=
  if maxb < (bks ++ [0]).length then (bks ++ [0]).drop 1 else bks ++ [0]

/-- The while loop of `update_current_time` (`app.rs` 410-420):
`while bucket_time + bucket_duration < new_time` start a new bucket.
The Rust loop has no bound; the `fuel` argument is an upper bound on the
number of iterations, and the caller passes `(new_time - bucket_time).toNat`,
which is sufficient whenever `0 < d` (the loop does not terminate in Rust for
`d ≤ 0`, a state the program never constructs). -/
def advanceSteps (d : Int) (maxb : Nat) (new_time : Int) :
    Nat → Int → List Nat → Int × List Nat
  | 0, bucket_time, bks => (bucket_time, bks)
  | fuel + 1, bucket_time, bks =>
    if bucket_time + d < new_time then
      advanceSteps d maxb new_time fuel (bucket_time + d) (pushEvict maxb bks)
    else (bucket_time, bks)

/-- Closed form for the number of loop iterations performed by
`advanceSteps` starting from gap `delta = new_time - bucket_time`
(for `0 < d`): the number of `j ≥ 1` with `j * d < delta`. -/
def advanceCount (d delta : Int) : Nat :=
  if 0 < delta then ((delta - 1) / d).toNat else 0

/-- The per-`BucketSet` body of `TimelineSet::update_current_time`
(`app.rs` 404-426): anchor the start time on first call, otherwise run the
bucket-advance loop. -/
def BucketSet.update_current_time (bs : BucketSet) (new_time : Option Int) : BucketSet :=
  match bs.bucket_time with
  | some bucket_time =>
    match new_time with
    | some nt =>
      let r := advanceSteps bs.bucket_duration bs.max_buckets nt
        (nt - bucket_time).toNat bucket_time bs.buckets
      { bs with bucket_time := some r.1, buckets := r.2 }
    | none => bs
  | none => { bs with bucket_time := new_time }

/-- `BucketSet::increment_value` (`app.rs` 452-455). -/
def BucketSet.increment_value (bs : BucketSet) : BucketSet :=
  { bs with buckets := incLast bs.buckets }

/-- `BucketSet::set_bucket_value` (`app.rs` 447-450). -/
def BucketSet.set_bucket_value (bs : BucketSet) (value : Nat) : BucketSet :=
  { bs with buckets := bs.buckets.dropLast ++ [value] }

/-- A named group of `BucketSet`s (`struct TimelineSet`, `app.rs` 366-369).
The Rust `HashMap<&'static str, BucketSet>` is modelled as an association
list; the program only ever inserts five distinct fixed keys, and both
`update_current_time` and `increment_value` act on every entry
independently, so iteration order is irrelevant. -/
structure TimelineSet where
  name : List Char
  bucket_sets : List (List Char × BucketSet)
deriving DecidableEq

/-- `TimelineSet::new` (`app.rs` 380-385). -/
def TimelineSet.new (name : List Char) : TimelineSet :=
  { name := name, bucket_sets := [] }

/-- `TimelineSet::add_bucket_set` (`app.rs` 391-395); `HashMap::insert` with a
key not yet present, modelled as appending to the association list. -/
def TimelineSet.add_bucket_set (ts : TimelineSet) (name : List Char)
    (duration : Int) (max_buckets : Nat) : TimelineSet :=
  { ts with bucket_sets := ts.bucket_sets ++ [(name, BucketSet.new duration max_buckets)] }

/-- `TimelineSet::update_current_time` (`app.rs` 404-426): advance every owned
`BucketSet` with the same (optional) new time. -/
def TimelineSet.update_current_time (ts : TimelineSet) (new_time : Option Int) : TimelineSet :=
  { ts with bucket_sets := ts.bucket_sets.map (fun p => (p.1, p.2.update_current_time new_time)) }

/-- `TimelineSet::increment_value` (`app.rs` 428-433): increment the current
(last) bucket of every owned `BucketSet`. -/
def TimelineSet.increment_value (ts : TimelineSet) : TimelineSet :=
  { ts with bucket_sets := ts.bucket_sets.map (fun p => (p.1, p.2.increment_value)) }

/-! ## The log-line grammar (`LOG_LINE_PATTERN`, `app.rs` 326-337)

The regex is
`(?P<category>^[A-Z]{4}) (?P<time_string>[^ ]{35}) (?P<source>\[.*\]) (?P<message>.*)`:
anchored at the start, a 4-letter uppercase category, a space, a 35-character
field with no spaces, a space, a literal `[`, a greedy `.*` up to a `]`
followed by a space, and the rest of the line as the message.  Greedy
matching picks the LAST position where `]` is immediately followed by a
space (the trailing `.*` always matches whatever remains). -/

/-- Position of the last index `i` in `s` such that `s[i] = ']'` and
`s[i+1] = ' '` (the backtracking choice of the greedy `\[.*\] `). -/
def lastBracketPos : List Char → Option Nat
  | [] => none
  | c :: rest =>
    match lastBracketPos rest with
    | some i => some (i + 1)
    | none => if c = ']' ∧ rest.head? = some ' ' then some 0 else none

/-- `Regex::captures` for `LOG_LINE_PATTERN`: returns
`(category, time_string, source, message)` when the line matches. -/
def logLineCaptures (line : List Char) : Option (List Char × List Char × List Char × List Char) :=
  let category := line.take 4
  if category.length = 4 ∧ category.all Char.isUpper ∧ (line.drop 4).head? = some ' ' then
    let time_string := (line.drop 5).take 35
    if time_string.length = 35 ∧ time_string.all (fun c => c ≠ ' ') ∧
        (line.drop 40).head? = some ' ' ∧ (line.drop 41).head? = some '[' then
      let inner := line.drop 42
      match lastBracketPos inner with
      | some i => some (category, time_string, '[' :: inner.take (i + 1), inner.drop (i + 2))
      | none => none
    else none
  else none

/-! ## RFC 3339 timestamp parsing

Modelled from the spec: the code calls `chrono`'s
`DateTime::<FixedOffset>::parse_from_rfc3339` (an external crate, not part of
this repository).  The spec describes the field as "a fixed-width timestamp
field parseable as an RFC-3339-style offset datetime".  The model accepts
`YYYY-MM-DD` `T`/`t` `HH:MM:SS` optional `.fraction` and `Z`/`z` or `±HH:MM`,
with calendar-valid dates, and yields the instant as an `Int` of nanoseconds
since the Unix epoch.  The claims only use anchoring/failure of the parse,
never the concrete value. -/

/-- Read exactly `n` ASCII digits, accumulating their value. -/
def readDigitsAux : Nat → Nat → List Char → Option (Nat × List Char)
  | 0, acc, s => some (acc, s)
  | n + 1, acc, c :: s =>
    if c.isDigit then readDigitsAux n (acc * 10 + (c.toNat - 48)) s else none
  | _ + 1, _, [] => none

/-- Consume one expected character. -/
def expectChar (c : Char) : List Char → Option (List Char)
  | d :: s => if d = c then some s else none
  | [] => none

/-- Gregorian leap year. -/
def isLeapYear (y : Nat) : Bool := y % 4 = 0 && (y % 100 != 0 || y % 400 = 0)

/-- Number of days in a month. -/
def daysInMonth (y mo : Nat) : Nat :=
  if mo = 2 then (if isLeapYear y then 29 else 28)
  else if mo = 4 ∨ mo = 6 ∨ mo = 9 ∨ mo = 11 then 30
  else 31

/-- Days from 1970-01-01 to `y-mo-d` (civil-calendar day-count formula). -/
def daysFromCivil (y : Int) (mo d : Nat) : Int :=
  let y2 : Int := if mo ≤ 2 then y - 1 else y
  let era : Int := y2.ediv 400
  let yoe : Int := y2 - era * 400
  let mp : Int := if 2 < mo then (mo : Int) - 3 else (mo : Int) + 9
  let doy : Int := (153 * mp + 2).ediv 5 + (d : Int) - 1
  let doe : Int := yoe * 365 + yoe.ediv 4 - yoe.ediv 100 + doy
  era * 146097 + doe - 719468

/-- Read a fractional-seconds field `.d+` as nanoseconds (digits beyond the
ninth are ignored). -/
def readFrac : List Char → Option (Nat × List Char)
  | '.' :: rest =>
    let ds := rest.takeWhile Char.isDigit
    if ds = [] then none
    else
      let first9 := ds.take 9
      let v := first9.foldl (fun a c => a * 10 + (c.toNat - 48)) 0
      some (v * 10 ^ (9 - first9.length), rest.drop ds.length)
  | _ => none

/-- Read the offset suffix: `Z`/`z` or `±HH:MM`, as seconds east of UTC. -/
def readOffsetSec : List Char → Option (Int × List Char)
  | 'Z' :: s => some (0, s)
  | 'z' :: s => some (0, s)
  | c :: s =>
    if c = '+' ∨ c = '-' then
      match readDigitsAux 2 0 s with
      | some (hh, s1) =>
        match expectChar ':' s1 with
        | some s2 =>
          match readDigitsAux 2 0 s2 with
          | some (mm, s3) =>
            if hh ≤ 23 ∧ mm ≤ 59 then
              some ((if c = '-' then -(hh * 3600 + mm * 60 : Int) else (hh * 3600 + mm * 60 : Int)), s3)
            else none
          | none => none
        | none => none
      | none => none
    else none
  | [] => none

/-- Modelled from the spec: `chrono::DateTime::<FixedOffset>::parse_from_rfc3339`
(external crate).  Returns the instant as nanoseconds since the epoch, or
`none` when the string is not a valid RFC-3339 offset datetime. -/
def parseRFC3339 (s : List Char) : Option Int := do
  let (y, s) ← readDigitsAux 4 0 s
  let s ← expectChar '-' s
  let (mo, s) ← readDigitsAux 2 0 s
  let s ← expectChar '-' s
  let (d, s) ← readDigitsAux 2 0 s
  let s ← (match s with
    | c :: rest => if c = 'T' ∨ c = 't' then some rest else none
    | [] => none)
  let (h, s) ← readDigitsAux 2 0 s
  let s ← expectChar ':' s
  let (mi, s) ← readDigitsAux 2 0 s
  let s ← expectChar ':' s
  let (sec, s) ← readDigitsAux 2 0 s
  let (nanos, s) ← (match s with
    | '.' :: rest => readFrac ('.' :: rest)
    | other => some (0, other))
  let (off, s) ← readOffsetSec s
  if s = [] ∧ 1 ≤ mo ∧ mo ≤ 12 ∧ 1 ≤ d ∧ d ≤ daysInMonth y mo ∧
      h ≤ 23 ∧ mi ≤ 59 ∧ sec ≤ 60 then
    some ((daysFromCivil (y : Int) mo d * 86400 +
      (h : Int) * 3600 + (mi : Int) * 60 + (sec : Int) - off) * 1000000000 + (nanos : Int))
  else none

/-- Modelled from the spec: `chrono`'s `Display` rendering of a parsed
`DateTime`, used only inside debug diagnostic strings which no claim
inspects; rendered here as the decimal instant. -/
def formatTimeModel (n : Int) : List Char := (toString n).toList

/-! ## LogEntry and ActivityEntry (`app.rs` 773-863) -/

/-- Decoded logfile entry (`struct LogEntry`, `app.rs` 799-807). -/
structure LogEntry where
  logstring : List Char
  category : List Char
  time : Option Int
  source : List Char
  message : List Char
  parser_output : List Char
deriving DecidableEq

/-- Vault activity record (`struct ActivityEntry`, `app.rs` 774-782). -/
structure ActivityEntry where
  activity : List Char
  logstring : List Char
  category : List Char
  time : Option Int
  source : List Char
  parser_output : List Char
deriving DecidableEq

/-- `ActivityEntry::new` (`app.rs` 785-795). -/
def ActivityEntry.new (entry : LogEntry) (activity : List Char) : ActivityEntry :=
  { activity := activity
    logstring := entry.logstring
    category := entry.category
    time := entry.time
    source := entry.source
    parser_output := [] }

/-- `LogEntry::parse_logfile_line` (`app.rs` 834-862): match the line against
`LOG_LINE_PATTERN`; on success build the record, parsing the timestamp field
and storing `none` when it is not a valid RFC-3339 datetime. -/
def LogEntry.parse_logfile_line (line : List Char) : Option LogEntry :=
  match logLineCaptures line with
  | none => none
  | some (category, time_string, source, message) =>
    let time := parseRFC3339 time_string
    let time_str := match time with
      | none => ("None").toList
      | some t => formatTimeModel t
    some { logstring := line
           category := category
           time := time
           source := source
           message := message
           parser_output := ("c: ").toList ++ category ++ (", t: ").toList ++ time_str ++
             (", s: ").toList ++ source ++ (", m: ").toList ++ message }

/-- `LogEntry::decode` (`app.rs` 814-829): reject the empty line, otherwise
parse against the primary grammar. -/
def LogEntry.decode (line : List Char) : Option LogEntry :=
  if line = [] then none else LogEntry.parse_logfile_line line

/-! ## VaultMetrics (`app.rs` 339-345, 466-771) -/

/-- `enum VaultAgebracket` (`app.rs` 339-345). -/
inductive VaultAgebracket where
  | Unknown
  | Infant
  | Adult
  | Elder
deriving DecidableEq

/-- The vault metrics store (`struct VaultMetrics`, `app.rs` 466-489).
The `debug_logfile: Option<NamedTempFile>` handle is I/O and is omitted;
no claim concerns it. -/
structure VaultMetrics where
  vault_started : Option Int
  running_message : Option (List Char)
  running_version : Option (List Char)
  category_count : List (List Char × Nat)
  activity_history : List ActivityEntry
  log_history : List LogEntry
  puts_timeline : TimelineSet
  gets_timeline : TimelineSet
  errors_timeline : TimelineSet
  most_recent : Option Int
  agebracket : VaultAgebracket
  adults : Nat
  elders : Nat
  activity_gets : Nat
  activity_puts : Nat
  activity_errors : Nat
  activity_other : Nat
  parser_output : List Char
deriving DecidableEq

/-- The five granularities added to each timeline in `VaultMetrics::new`
(`app.rs` 496-506), with durations in seconds: `Duration::minutes(1)`,
`Duration::hours(1)`, `Duration::days(1)`, `Duration::days(365 / 12)`
(integer division: 30 days) and `Duration::days(365)`. -/
def standardBucketSets (timeline_steps : Nat) (ts : TimelineSet) : TimelineSet :=
  ((((ts.add_bucket_set (("1 minute").toList) 60 timeline_steps).add_bucket_set
    (("1 hour").toList) 3600 timeline_steps).add_bucket_set
    (("1 day").toList) 86400 timeline_steps).add_bucket_set
    (("1 twelth year").toList) 2592000 timeline_steps).add_bucket_set
    (("1 year").toList) 31536000 timeline_steps

/-- `VaultMetrics::new` (`app.rs` 492-542).  The only field of `Opt` it reads
is `timeline_steps`, passed here directly (`opt.rs` is outside this crate
slice). -/
def VaultMetrics.new (timeline_steps : Nat) : VaultMetrics :=
  { vault_started := none
    running_message := none
    running_version := none
    activity_history := []
    log_history := []
    most_recent := none
    puts_timeline := standardBucketSets timeline_steps (TimelineSet.new (("PUTS").toList))
    gets_timeline := standardBucketSets timeline_steps (TimelineSet.new (("GETS").toList))
    errors_timeline := standardBucketSets timeline_steps (TimelineSet.new (("ERRORS").toList))
    category_count := []
    activity_gets := 0
    activity_puts := 0
    activity_errors := 0
    activity_other := 0
    agebracket := VaultAgebracket.Infant
    adults := 0
    elders := 0
    parser_output := ("-").toList }

/-- `VaultMetrics::reset_metrics` (`app.rs` 553-561). -/
def VaultMetrics.reset_metrics (m : VaultMetrics) : VaultMetrics :=
  { m with agebracket := VaultAgebracket.Infant
           adults := 0
           elders := 0
           activity_gets := 0
           activity_puts := 0
           activity_errors := 0
           activity_other := 0 }

/-- `VaultMetrics::parse_start` (`app.rs` 610-636): the fallback grammar.  A
line starting with `"Running safe-vault "` captures the remainder as the
version, records start metadata, resets the metrics, and yields a `START`
entry whose `message` is the whole line and whose `source` is empty. -/
def VaultMetrics.parse_start (m : VaultMetrics) (line : List Char) :
    VaultMetrics × Option LogEntry :=
  let running_prefix := ("Running safe-vault ").toList
  if running_prefix.isPrefixOf line then
    let m1 := { m with running_message := some line
                       running_version := some (line.drop running_prefix.length)
                       vault_started := m.most_recent }
    let parser_output := ("START at ").toList ++
      (match m.most_recent with
        | none => ("None").toList
        | some t => formatTimeModel t)
    let m2 := m1.reset_metrics
    (m2, some { logstring := line
                category := ("START").toList
                time := m2.most_recent
                source := []
                message := line
                parser_output := parser_output })
  else (m, none)

/-- `VaultMetrics::parse_usize` (`app.rs` 712-720): find `pre` in `content`
and parse everything after it as a `usize`; on a parse error record a
diagnostic and keep the stored value. -/
def VaultMetrics.parse_usize (m : VaultMetrics) (pre content : List Char) :
    VaultMetrics × Option Nat :=
  match findSubstr pre content with
  | some position =>
    match rustParseUsize (content.drop (position + pre.length)) with
    | some value => (m, some value)
    | none =>
      ({ m with parser_output := ("failed to parse usize from: ").toList ++
          [quoteC] ++ content ++ [quoteC] }, none)
  | none => (m, none)

/-- `VaultMetrics::parse_word` (`app.rs` 722-732): find `pre` in `content`,
then take `content.trim_start().splitn(1, " ")` — with a limit of 1 this is
the whole trimmed content, so the length-1 branch is always taken. -/
def VaultMetrics.parse_word (m : VaultMetrics) (pre content : List Char) :
    VaultMetrics × Option (List Char) :=
  match findSubstr pre content with
  | some start =>
    match rustSplitn1 (trimStart content) with
    | [word] => (m, some word)
    | _ =>
      ({ m with parser_output := ("failed to parse word at: ").toList ++
          [quoteC] ++ content.drop start ++ [quoteC] }, none)
  | none => (m, none)

/-- `VaultMetrics::parse_states` (`app.rs` 674-710): elder count, adult count
and lifecycle-promotion checks, in that order, first match wins.  Note the
code's inverted diagnostic after the promotion match: the `Unknown` case
writes the neutral `"Vault agebracket: …"` string while a recognised stage
writes `"FAILED to parse agebracket in: …"`. -/
def VaultMetrics.parse_states (m : VaultMetrics) (entry : LogEntry) :
    VaultMetrics × Bool :=
  let content := entry.logstring
  match m.parse_usize (("No. of Elders:").toList) content with
  | (mA, some elders) =>
    ({ mA with elders := elders,
               parser_output := ("ELDERS: ").toList ++ natToStr elders }, true)
  | (mA, none) =>
    match mA.parse_usize (("No. of Adults:").toList) content with
    | (mB, some adults) =>
      ({ mB with adults := adults,
                 parser_output := ("ADULTS: ").toList ++ natToStr adults }, true)
    | (mB, none) =>
      let (mC, w1) := mB.parse_word (("Vault promoted to ").toList) content
      let (mD, w2) := mC.parse_word (("Initializing new Vault as ").toList) content
      match w1.or w2 with
      | some agebracket =>
        let (mE, newAge) :=
          if agebracket = ("Infant").toList then (mD, VaultAgebracket.Infant)
          else if agebracket = ("Adult").toList then (mD, VaultAgebracket.Adult)
          else if agebracket = ("Elder").toList then (mD, VaultAgebracket.Elder)
          else ({ mD with parser_output := ("Error, unkown vault agedbracket ").toList ++
                    [quoteC] ++ agebracket ++ [quoteC] }, VaultAgebracket.Unknown)
        let mF := { mE with agebracket := newAge }
        let mG :=
          if mF.agebracket = VaultAgebracket.Unknown then
            { mF with parser_output := ("Vault agebracket: ").toList ++ agebracket }
          else
            { mF with parser_output := ("FAILED to parse agebracket in: ").toList ++ content }
        (mG, true)
      | none => (mD, false)

/-- `VaultMetrics::count_get` (`app.rs` 745-748). -/
def VaultMetrics.count_get (m : VaultMetrics) : VaultMetrics :=
  { m with activity_gets := m.activity_gets + 1
           gets_timeline := m.gets_timeline.increment_value }

/-- `VaultMetrics::count_put` (`app.rs` 750-753). -/
def VaultMetrics.count_put (m : VaultMetrics) : VaultMetrics :=
  { m with activity_puts := m.activity_puts + 1
           puts_timeline := m.puts_timeline.increment_value }

/-- `VaultMetrics::count_error` (`app.rs` 755-758). -/
def VaultMetrics.count_error (m : VaultMetrics) : VaultMetrics :=
  { m with activity_errors := m.activity_errors + 1
           errors_timeline := m.errors_timeline.increment_value }

/-- `VaultMetrics::parse_activity_counts` (`app.rs` 735-743). -/
def VaultMetrics.parse_activity_counts (m : VaultMetrics) (entry : ActivityEntry) :
    VaultMetrics :=
  if (("Get").toList).isPrefixOf entry.activity then m.count_get
  else if (("Mut").toList).isPrefixOf entry.activity then m.count_put
  else { m with activity_other := m.activity_other + 1 }

/-- The activity marker passed by `process_logfile_entry` (`app.rs` 641-644). -/
def responsePattern : List Char :=
  ("Responded to our data handlers with: Response \x7b response: Response::").toList

/-- `VaultMetrics::parse_data_response` (`app.rs` 649-670): find the marker,
take the text up to the next comma as the activity label; a non-empty label
is counted and recorded, an empty or comma-less remainder records a failure
diagnostic; the line counts as processed whenever the marker was found. -/
def VaultMetrics.parse_data_response (m : VaultMetrics) (entry : LogEntry)
    (pattern : List Char) : VaultMetrics × Bool :=
  match findSubstr pattern entry.logstring with
  | some response_start0 =>
    let response_start := response_start0 + pattern.length
    let rest := entry.logstring.drop response_start
    match findSubstr ((",").toList) rest with
    | some response_end =>
      let response := rest.take response_end
      if response ≠ [] then
        let activity_entry := ActivityEntry.new entry response
        let m1 := m.parse_activity_counts activity_entry
        ({ m1 with activity_history := m1.activity_history ++ [activity_entry]
                   parser_output := ("vault activity: ").toList ++ response }, true)
      else
        ({ m with parser_output := ("failed to parse_data_response: ").toList ++
            entry.logstring }, true)
    | none =>
      ({ m with parser_output := ("failed to parse_data_response: ").toList ++
          entry.logstring }, true)
  | none => (m, false)

/-- `VaultMetrics::process_logfile_entry` (`app.rs` 640-645):
`parse_data_response(..) || parse_states(..)` with Rust's short-circuit. -/
def VaultMetrics.process_logfile_entry (m : VaultMetrics) (entry : LogEntry) :
    VaultMetrics × Bool :=
  let r := m.parse_data_response entry responsePattern
  if r.2 then r else r.1.parse_states entry

/-- `VaultMetrics::gather_metrics` (`app.rs` 566-606), without the
`debug_logfile` I/O: decode the line (primary grammar, then the
`parse_start` fallback), backfill or update `most_recent`, advance all three
timelines, process the entry and append it to the log history. -/
def VaultMetrics.gather_metrics (m : VaultMetrics) (line : List Char) : VaultMetrics :=
  let dec : VaultMetrics × Option LogEntry :=
    match LogEntry.decode line with
    | some e => (m, some e)
    | none => m.parse_start line
  match dec with
  | (m1, none) => m1
  | (m1, some e0) =>
    let entry := if e0.time = none then { e0 with time := m1.most_recent } else e0
    let m2 := if e0.time = none then m1 else { m1 with most_recent := e0.time }
    let m3 := { m2 with
      puts_timeline := m2.puts_timeline.update_current_time m2.most_recent
      gets_timeline := m2.gets_timeline.update_current_time m2.most_recent
      errors_timeline := m2.errors_timeline.update_current_time m2.most_recent }
    let m4 := { m3 with parser_output := entry.parser_output }
    let m5 := (m4.process_logfile_entry entry).1
    { m5 with log_history := m5.log_history ++ [entry] }

/-! ## Concrete test vectors used by witnesses and counterexamples -/

/-- An anchored bucket set used as a witness input. -/
def bsW : BucketSet :=
  { bucket_time := some 0
    total_duration := 300
    bucket_duration := 60
    max_buckets := 5
    buckets := [3] }

/-- A two-granularity timeline used as a witness input. -/
def tsW : TimelineSet :=
  { name := ("GETS").toList
    bucket_sets := [(("1 minute").toList, BucketSet.new 60 3),
                    (("1 hour").toList, BucketSet.new 3600 3)] }

/-- The activity label `parse_data_response` extracts when the marker is at
index `pos` and the next comma is `rend` characters after it: the text
between the end of the marker and the comma. -/
def responseSlice (e : LogEntry) (pos rend : Nat) : List Char :=
  (e.logstring.drop (pos + responsePattern.length)).take rend

/-- Scenario A: a fully well-formed primary-grammar line. -/
def lineA : List Char :=
  ("INFO 2020-07-08T19:58:26.841778689+01:00 [src/bin/app.rs:114] starting up").toList

/-- A line in the primary-grammar shape (4-letter uppercase category, a
35-character spaceless timestamp field, bracketed source, message) whose
timestamp field is not a parseable datetime. -/
def c3Line : List Char :=
  ("INFO ").toList ++ List.replicate 35 'X' ++ (" [src] hello").toList

/-- Scenario B: the process-start marker line. -/
def runningLine : List Char := ("Running safe-vault v0.24.0").toList

/-- A decoded entry whose message contains the scenario D text
`"No. of Elders: 7"`. -/
def c4Entry : LogEntry :=
  { logstring := ("INFO 2020-07-08T19:58:26.841778689+01:00 [src] No. of Elders: 7").toList
    category := ("INFO").toList
    time := none
    source := ("[src]").toList
    message := ("No. of Elders: 7").toList
    parser_output := [] }

/-- A decoded entry announcing a lifecycle promotion to `Adult`. -/
def c5Entry : LogEntry :=
  { logstring := ("INFO 2020-07-08T19:58:26.841778689+01:00 [src] Vault promoted to Adult").toList
    category := ("INFO").toList
    time := none
    source := ("[src]").toList
    message := ("Vault promoted to Adult").toList
    parser_output := [] }

/-- A decoded entry carrying the scenario C activity marker with label
`GetSuccess`. -/
def c7Entry : LogEntry :=
  { logstring := ("INFO 2020-07-08T19:58:26.841778689+01:00 [src] Responded to our data handlers with: Response \x7b response: Response::GetSuccess, message_id: MessageId(1)").toList
    category := ("INFO").toList
    time := none
    source := ("[src]").toList
    message := ("Responded to our data handlers with: Response \x7b response: Response::GetSuccess, message_id: MessageId(1)").toList
    parser_output := [] }

/-- A decoded entry announcing a lifecycle promotion to `Elder`. -/
def c10Entry : LogEntry :=
  { logstring := ("INFO 2020-07-08T19:58:26.841778689+01:00 [src] Vault promoted to Elder").toList
    category := ("INFO").toList
    time := none
    source := ("[src]").toList
    message := ("Vault promoted to Elder").toList
    parser_output := [] }

/-! # Theorems -/

/-! ## Bucket-window lemmas -/

theorem pushEvict_length (maxb : Nat) (bks : List Nat) (h : bks.length ≤ maxb) :
    (pushEvict maxb bks).length = min (bks.length + 1) maxb := by
  unfold pushEvict
  split
  · rename_i hc
    simp only [List.length_drop, List.length_append] at hc ⊢
    simp at hc ⊢
    omega
  · rename_i hc
    simp only [List.length_append] at hc ⊢
    simp at hc ⊢
    omega

theorem pushEvict_suffix (maxb : Nat) (bks : List Nat) :
    (pushEvict maxb bks) <:+ bks ++ [0] := by
  unfold pushEvict
  split
  · exact List.drop_suffix 1 _
  · exact List.suffix_refl _

theorem pushEvict_iter_length (maxb k : Nat) :
    ∀ bks : List Nat, bks.length ≤ maxb →
      ((pushEvict maxb)^[k] bks).length = min (bks.length + k) maxb := by
  induction k with
  | zero => intro bks h; simp; omega
  | succ n ih =>
    intro bks h
    rw [Function.iterate_succ_apply]
    have h1 := pushEvict_length maxb bks h
    have h2 : (pushEvict maxb bks).length ≤ maxb := by omega
    rw [ih _ h2, h1]
    omega

theorem pushEvict_iter_suffix (maxb k : Nat) :
    ∀ bks : List Nat, ((pushEvict maxb)^[k] bks) <:+ bks ++ List.replicate k 0 := by
  induction k with
  | zero => intro bks; simp
  | succ n ih =>
    intro bks
    rw [Function.iterate_succ_apply]
    refine (ih (pushEvict maxb bks)).trans ?_
    obtain ⟨p, hp⟩ := pushEvict_suffix maxb bks
    refine ⟨p, ?_⟩
    rw [← List.append_assoc, hp, List.append_assoc]
    congr 1

theorem advanceCount_zero (d delta : Int) (hd : 0 < d) (h : delta ≤ d) :
    advanceCount d delta = 0 := by
  unfold advanceCount
  by_cases hp : 0 < delta
  · have h0 : (0 : Int) ≤ delta - 1 := by omega
    have h1 : delta - 1 < d := by omega
    simp [hp, Int.ediv_eq_zero_of_lt h0 h1]
  · simp [hp]

theorem advanceCount_succ (d delta : Int) (hd : 0 < d) (h : d < delta) :
    advanceCount d delta = advanceCount d (delta - d) + 1 := by
  unfold advanceCount
  have hp : 0 < delta := by omega
  have hp2 : 0 < delta - d := by omega
  simp only [hp, hp2, if_true]
  have hdec : delta - 1 = (delta - d - 1) + 1 * d := by ring
  have hdiv : (delta - 1) / d = (delta - d - 1) / d + 1 := by
    rw [hdec]
    exact Int.add_mul_ediv_right _ 1 (by omega)
  have hnn : (0 : Int) ≤ (delta - d - 1) / d :=
    Int.ediv_nonneg (by omega) (by omega)
  omega

theorem advanceCount_le (d delta : Int) (hd : 0 < d) :
    advanceCount d delta ≤ delta.toNat := by
  unfold advanceCount
  by_cases hp : 0 < delta
  · have h1 : (delta - 1) / d ≤ delta - 1 := Int.ediv_le_self _ (by omega)
    simp only [hp, if_true]
    omega
  · simp [hp]

theorem advanceCount_exit (d delta : Int) (hd : 0 < d) :
    delta - d * (advanceCount d delta : Int) ≤ d := by
  unfold advanceCount
  by_cases hp : 0 < delta
  · simp only [hp, if_true]
    have hnn : (0 : Int) ≤ (delta - 1) / d := Int.ediv_nonneg (by omega) (by omega)
    rw [Int.toNat_of_nonneg hnn]
    have hmod := Int.ediv_add_emod (delta - 1) d
    have hlt := Int.emod_lt_of_pos (delta - 1) hd
    have hge := Int.emod_nonneg (delta - 1) (ne_of_gt hd)
    linarith
  · simp only [hp, if_false]
    omega

theorem advanceSteps_eq (d : Int) (maxb : Nat) (t : Int) (hd : 0 < d) :
    ∀ (fuel : Nat) (bt : Int) (bks : List Nat), advanceCount d (t - bt) ≤ fuel →
      advanceSteps d maxb t fuel bt bks =
        (bt + d * advanceCount d (t - bt), (pushEvict maxb)^[advanceCount d (t - bt)] bks) := by
  intro fuel
  induction fuel with
  | zero =>
    intro bt bks hle
    have h0 : advanceCount d (t - bt) = 0 := Nat.le_zero.mp hle
    simp [advanceSteps, h0]
  | succ n ih =>
    intro bt bks hle
    by_cases hc : bt + d < t
    · have hrw : t - (bt + d) = t - bt - d := by ring
      have hsucc : advanceCount d (t - bt) = advanceCount d (t - bt - d) + 1 :=
        advanceCount_succ d (t - bt) hd (by omega)
      simp only [advanceSteps, hc, if_true]
      rw [ih (bt + d) (pushEvict maxb bks) (by rw [hrw]; omega)]
      rw [hrw, hsucc]
      simp only [Prod.mk.injEq]
      refine ⟨?_, ?_⟩
      · push_cast
        ring
      · rw [Function.iterate_succ_apply]
    · have h0 : advanceCount d (t - bt) = 0 :=
        advanceCount_zero d (t - bt) hd (by omega)
      simp [advanceSteps, hc, h0]

theorem BucketSet.update_some_eq (bs : BucketSet) (bt t : Int)
    (hbt : bs.bucket_time = some bt) (hd : 0 < bs.bucket_duration) :
    bs.update_current_time (some t) =
      { bs with
        bucket_time := some (bt + bs.bucket_duration *
          advanceCount bs.bucket_duration (t - bt))
        buckets := (pushEvict bs.max_buckets)^[advanceCount bs.bucket_duration (t - bt)]
          bs.buckets } := by
  unfold BucketSet.update_current_time
  rw [hbt]
  simp only
  rw [advanceSteps_eq bs.bucket_duration bs.max_buckets t hd _ bt bs.buckets
    (advanceCount_le bs.bucket_duration (t - bt) hd)]

theorem advanceSteps_len (d : Int) (maxb : Nat) (t : Int) :
    ∀ (fuel : Nat) (bt : Int) (bks : List Nat), bks.length ≤ maxb →
      (advanceSteps d maxb t fuel bt bks).2.length ≤ maxb := by
  intro fuel
  induction fuel with
  | zero => intro bt bks h; simpa [advanceSteps] using h
  | succ n ih =>
    intro bt bks h
    by_cases hc : bt + d < t
    · simp only [advanceSteps, hc, if_true]
      refine ih _ _ ?_
      have := pushEvict_length maxb bks h
      omega
    · simpa [advanceSteps, hc] using h

theorem BucketSet.update_max (bs : BucketSet) (nt : Option Int) :
    (bs.update_current_time nt).max_buckets = bs.max_buckets := by
  unfold BucketSet.update_current_time
  cases bs.bucket_time <;> cases nt <;> rfl

theorem BucketSet.update_len (bs : BucketSet) (nt : Option Int)
    (h : bs.buckets.length ≤ bs.max_buckets) :
    (bs.update_current_time nt).buckets.length ≤ bs.max_buckets := by
  unfold BucketSet.update_current_time
  cases hb : bs.bucket_time with
  | none => cases nt <;> simpa using h
  | some bt =>
    cases nt with
    | none => simpa using h
    | some t =>
      simp only
      exact advanceSteps_len _ _ _ _ _ _ h

theorem BucketSet.update_no_step (bs : BucketSet) (bt t : Int)
    (hbt : bs.bucket_time = some bt) (hd : 0 < bs.bucket_duration)
    (h : t - bt ≤ bs.bucket_duration) :
    bs.update_current_time (some t) = bs := by
  rw [BucketSet.update_some_eq bs bt t hbt hd,
    advanceCount_zero bs.bucket_duration (t - bt) hd h]
  cases bs with
  | mk a b c dd e => simp_all

theorem BucketSet.update_idem (bs : BucketSet) (t : Int)
    (hd : 0 < bs.bucket_duration) :
    (bs.update_current_time (some t)).update_current_time (some t) =
      bs.update_current_time (some t) := by
  cases h : bs.bucket_time with
  | none =>
    have h1 : bs.update_current_time (some t) = { bs with bucket_time := some t } := by
      unfold BucketSet.update_current_time
      rw [h]
    rw [h1]
    exact BucketSet.update_no_step _ t t rfl hd (by simp only; omega)
  | some bt =>
    rw [BucketSet.update_some_eq bs bt t h hd]
    refine BucketSet.update_no_step _
      (bt + bs.bucket_duration * advanceCount bs.bucket_duration (t - bt)) t rfl hd ?_
    have hexit := advanceCount_exit bs.bucket_duration (t - bt) hd
    linarith

/-- C8: advancing a `TimelineSet` twice in a row to the same timestamp is
idempotent: the second `update_current_time` call with the same `new_time`
creates no additional buckets and changes no bucket value or bucket start
time in any owned `BucketSet` beyond the state after the first call.
All `bucket_duration`s in the program are positive (1 minute up to 1 year). -/
theorem C8_advance_idempotent (ts : TimelineSet) (t : Int)
    (hd : ∀ p ∈ ts.bucket_sets, 0 < p.2.bucket_duration) :
    (ts.update_current_time (some t)).update_current_time (some t) =
      ts.update_current_time (some t) := by
  unfold TimelineSet.update_current_time
  simp only [List.map_map]
  congr 1
  refine List.map_congr_left ?_
  intro p hp
  simp only [Function.comp_apply]
  rw [BucketSet.update_idem p.2 t (hd p hp)]

theorem C8_advance_idempotent_witness :
    (∀ p ∈ tsW.bucket_sets, 0 < p.2.bucket_duration) ∧
    (tsW.update_current_time (some 123)).update_current_time (some 123) =
      tsW.update_current_time (some 123) :=
  ⟨by decide, C8_advance_idempotent tsW 123 (by decide)⟩

/-- C1, counterexample: as stated the claim quantifies over every
`BucketSet`; with `max_buckets = 0` the invariant is already violated at
construction (the constructor always creates one bucket), before any
`advance_to` call. -/
theorem C1_counterexample :
    ¬ ((BucketSet.new 60 0).buckets.length ≤ (BucketSet.new 60 0).max_buckets) := by
  decide

/-- C1, amended: for every `BucketSet` with `max_buckets ≥ 1` and every
sequence of `update_current_time` calls after construction, the length of
`buckets` never exceeds `max_buckets`: whenever appending a bucket makes the
count exceed the maximum, the oldest bucket is dropped. -/
theorem C1_bucket_count_invariant (d : Int) (maxb : Nat) (h : 0 < maxb)
    (times : List (Option Int)) :
    (times.foldl BucketSet.update_current_time (BucketSet.new d maxb)).buckets.length
      ≤ maxb := by
  have key : ∀ (ts : List (Option Int)) (bs : BucketSet),
      bs.buckets.length ≤ bs.max_buckets → bs.max_buckets = maxb →
      (ts.foldl BucketSet.update_current_time bs).buckets.length ≤ maxb := by
    intro ts
    induction ts with
    | nil =>
      intro bs h1 h2
      simpa [h2] using h1
    | cons nt rest ih =>
      intro bs h1 h2
      simp only [List.foldl_cons]
      refine ih _ ?_ ?_
      · have := BucketSet.update_len bs nt h1
        rw [BucketSet.update_max]
        exact this
      · rw [BucketSet.update_max]
        exact h2
  refine key times (BucketSet.new d maxb) ?_ rfl
  simp [BucketSet.new]
  omega

theorem C1_bucket_count_invariant_witness :
    0 < 2 ∧ (([some 0, some 61, none, some 500] : List (Option Int)).foldl
      BucketSet.update_current_time (BucketSet.new 60 2)).buckets.length ≤ 2 :=
  ⟨by decide, C1_bucket_count_invariant 60 2 (by decide) [some 0, some 61, none, some 500]⟩

/-- C2, counterexample: the loop condition is `end_time < new_time` (strict),
so a bucket boundary landing exactly on `new_time` does NOT start a new
bucket.  A `BucketSet` with `bucket_duration = 60` anchored at 0 and advanced
to exactly 60 keeps a single bucket, while the claim predicts
`floor((60 - 0) / 60) = 1` newly created bucket (2 in total). -/
theorem C2_counterexample :
    (((BucketSet.new 60 5).update_current_time (some 0)).update_current_time
        (some 60)).buckets.length ≠ 1 + (((60 : Int) - 0) / 60).toNat := by
  decide

/-- C2, amended: for every anchored `BucketSet` with positive duration,
`update_current_time (some t)` appends a zero-valued bucket and advances the
start time by one `bucket_duration` for each step while
`start + bucket_duration < t` (strict — a boundary landing exactly on `t`
does not start a new bucket), so exactly
`advanceCount d (t - start)` = `max (0, ceil((t - start)/d) - 1)` buckets are
created; the surviving old bucket values are preserved (the result is a
suffix of the old buckets extended by zeros) and the count is capped by
`max_buckets`. -/
theorem C2_advance_strict_boundary (bs : BucketSet) (bt t : Int)
    (hbt : bs.bucket_time = some bt) (hd : 0 < bs.bucket_duration)
    (hlen : bs.buckets.length ≤ bs.max_buckets) :
    (bs.update_current_time (some t)).bucket_time =
        some (bt + bs.bucket_duration * advanceCount bs.bucket_duration (t - bt)) ∧
    (bs.update_current_time (some t)).buckets.length =
        min (bs.buckets.length + advanceCount bs.bucket_duration (t - bt))
          bs.max_buckets ∧
    (bs.update_current_time (some t)).buckets <:+
        bs.buckets ++ List.replicate (advanceCount bs.bucket_duration (t - bt)) 0 ∧
    (t - bt = bs.bucket_duration → advanceCount bs.bucket_duration (t - bt) = 0) := by
  rw [BucketSet.update_some_eq bs bt t hbt hd]
  refine ⟨rfl, pushEvict_iter_length _ _ _ hlen, pushEvict_iter_suffix _ _ _, ?_⟩
  intro heq
  exact advanceCount_zero _ _ hd (le_of_eq heq)

theorem C2_advance_strict_boundary_witness :
    (bsW.bucket_time = some 0 ∧ 0 < bsW.bucket_duration ∧
      bsW.buckets.length ≤ bsW.max_buckets) ∧
    ((bsW.update_current_time (some 130)).bucket_time =
        some (0 + bsW.bucket_duration * advanceCount bsW.bucket_duration (130 - 0)) ∧
      (bsW.update_current_time (some 130)).buckets.length =
        min (bsW.buckets.length + advanceCount bsW.bucket_duration (130 - 0))
          bsW.max_buckets ∧
      (bsW.update_current_time (some 130)).buckets <:+
        bsW.buckets ++ List.replicate (advanceCount bsW.bucket_duration (130 - 0)) 0 ∧
      ((130 : Int) - 0 = bsW.bucket_duration →
        advanceCount bsW.bucket_duration (130 - 0) = 0)) :=
  ⟨⟨rfl, by decide, by decide⟩,
    C2_advance_strict_boundary bsW 0 130 rfl (by decide) (by decide)⟩

/-! ## Decoder claims -/

/-- C3, counterexample: a line whose first token is a 4-letter uppercase
category and whose 35-character timestamp field is present but NOT a
parseable datetime is not rejected: `decode` returns a partial record with
the timestamp absent (`time = none`) and all other fields populated. -/
theorem C3_counterexample :
    (LogEntry.decode c3Line).map LogEntry.time = some none ∧
    (LogEntry.decode c3Line).map LogEntry.category = some (("INFO").toList) := by
  decide

/-- C3, amended: a line matching the shape of the primary grammar is always
accepted; the timestamp field is parsed separately, and when it is not a
valid RFC-3339 offset datetime the record is still produced with
`time = none` (later backfilled by the caller).  Rejection happens only for
shape deviations (wrong category width, spaces in the timestamp field,
missing bracketed source). -/
theorem C3_decode_partial_record (line c t s msg : List Char)
    (h : logLineCaptures line = some (c, t, s, msg)) :
    ∃ e, LogEntry.decode line = some e ∧ e.logstring = line ∧ e.category = c ∧
      e.time = parseRFC3339 t ∧ e.source = s ∧ e.message = msg := by
  have hne : line ≠ [] := by
    intro hl
    rw [hl] at h
    simp [logLineCaptures] at h
  unfold LogEntry.decode
  rw [if_neg hne]
  unfold LogEntry.parse_logfile_line
  rw [h]
  exact ⟨_, rfl, rfl, rfl, rfl, rfl, rfl⟩

theorem C3_decode_partial_record_witness :
    logLineCaptures lineA = some ((("INFO").toList,
      ("2020-07-08T19:58:26.841778689+01:00").toList,
      ("[src/bin/app.rs:114]").toList, ("starting up").toList)) ∧
    (∃ e, LogEntry.decode lineA = some e ∧ e.logstring = lineA ∧
      e.category = ("INFO").toList ∧
      e.time = parseRFC3339 (("2020-07-08T19:58:26.841778689+01:00").toList) ∧
      e.source = ("[src/bin/app.rs:114]").toList ∧
      e.message = ("starting up").toList) :=
  ⟨by decide, C3_decode_partial_record lineA (("INFO").toList)
    (("2020-07-08T19:58:26.841778689+01:00").toList)
    (("[src/bin/app.rs:114]").toList) (("starting up").toList) (by decide)⟩

/-! ## Metrics claims -/

/-- C9: `reset_metrics` modifies only the lifecycle fields (age bracket,
adult count, elder count) and the four activity counters; the three
timelines, the log history, the activity history, the most-recent timestamp,
the category-count mapping and all remaining fields are unchanged. -/
theorem C9_reset_frame (m : VaultMetrics) :
    m.reset_metrics.agebracket = VaultAgebracket.Infant ∧
    m.reset_metrics.adults = 0 ∧
    m.reset_metrics.elders = 0 ∧
    m.reset_metrics.activity_gets = 0 ∧
    m.reset_metrics.activity_puts = 0 ∧
    m.reset_metrics.activity_errors = 0 ∧
    m.reset_metrics.activity_other = 0 ∧
    m.reset_metrics.puts_timeline = m.puts_timeline ∧
    m.reset_metrics.gets_timeline = m.gets_timeline ∧
    m.reset_metrics.errors_timeline = m.errors_timeline ∧
    m.reset_metrics.log_history = m.log_history ∧
    m.reset_metrics.activity_history = m.activity_history ∧
    m.reset_metrics.most_recent = m.most_recent ∧
    m.reset_metrics.category_count = m.category_count ∧
    m.reset_metrics.vault_started = m.vault_started ∧
    m.reset_metrics.running_message = m.running_message ∧
    m.reset_metrics.running_version = m.running_version ∧
    m.reset_metrics.parser_output = m.parser_output :=
  ⟨rfl, rfl, rfl, rfl, rfl, rfl, rfl, rfl, rfl, rfl, rfl, rfl, rfl, rfl, rfl, rfl,
    rfl, rfl⟩

/-- C4: the claim says a line containing `"No. of Elders: 7"` sets the elder
count to 7.  In the code `parse_usize` feeds everything after the literal
prefix `"No. of Elders:"` — here `" 7"`, with a leading space — to Rust's
`str::parse::<usize>()`, which rejects any non-digit character, so the
update never happens: the elder count is left unchanged (0, not 7), the
failure diagnostic is recorded, and `parse_states` reports the line as NOT
processed. -/
theorem C4_elders_line_not_parsed :
    ((VaultMetrics.new 2).parse_states c4Entry).1.elders = 0 ∧
    ((VaultMetrics.new 2).parse_states c4Entry).1.elders ≠ 7 ∧
    ((VaultMetrics.new 2).parse_states c4Entry).2 = false ∧
    ((VaultMetrics.new 2).parse_states c4Entry).1.parser_output =
      ("failed to parse usize from: ").toList ++ [quoteC] ++
        c4Entry.logstring ++ [quoteC] := by
  decide

/-- C5: the claim says `"Vault promoted to Adult"` updates the age bracket to
`Adult`.  In the code `parse_word` returns `content.trim_start().splitn(1, " ")`,
which is the whole line rather than the word after the prefix, so the
`match` on the stage name never recognises it and the bracket is always set
to `Unknown` for every line containing a promotion pattern. -/
theorem C5_promotion_sets_unknown :
    ((VaultMetrics.new 2).parse_states c5Entry).1.agebracket = VaultAgebracket.Unknown ∧
    ((VaultMetrics.new 2).parse_states c5Entry).1.agebracket ≠ VaultAgebracket.Adult ∧
    ((VaultMetrics.new 2).parse_states c5Entry).2 = true := by
  decide

/-- C6, counterexample: the claim says the fallback path does not populate
`message` from the line itself, but `parse_start` sets `message` to the
whole (non-empty) line. -/
theorem C6_counterexample :
    ((VaultMetrics.new 2).parse_start runningLine).2.map LogEntry.message =
      some runningLine ∧ runningLine ≠ [] := by
  decide

/-- C6, amended: for every line beginning with `"Running safe-vault "`, the
fallback accepts it: the remainder after the prefix is captured as the
version string, the produced record has category `START`, `reset_metrics` is
applied immediately, and `source` is left empty — but `message` IS populated
with the entire line. -/
theorem C6_fallback_start (m : VaultMetrics) (line : List Char)
    (h : (("Running safe-vault ").toList).isPrefixOf line = true) :
    (m.parse_start line).1 =
      VaultMetrics.reset_metrics
        { m with running_message := some line
                 running_version := some (line.drop (("Running safe-vault ").toList).length)
                 vault_started := m.most_recent } ∧
    ∃ e, (m.parse_start line).2 = some e ∧
      e.category = ("START").toList ∧
      e.time = m.most_recent ∧
      e.source = [] ∧
      e.message = line ∧
      e.logstring = line := by
  unfold VaultMetrics.parse_start
  simp only [h, if_true]
  exact ⟨trivial, _, rfl, rfl, rfl, rfl, rfl, rfl⟩

theorem C6_fallback_start_witness :
    (("Running safe-vault ").toList).isPrefixOf runningLine = true ∧
    (((VaultMetrics.new 2).parse_start runningLine).1 =
      VaultMetrics.reset_metrics
        { VaultMetrics.new 2 with
            running_message := some runningLine
            running_version :=
              some (runningLine.drop (("Running safe-vault ").toList).length)
            vault_started := (VaultMetrics.new 2).most_recent } ∧
    ∃ e, ((VaultMetrics.new 2).parse_start runningLine).2 = some e ∧
      e.category = ("START").toList ∧
      e.time = (VaultMetrics.new 2).most_recent ∧
      e.source = [] ∧
      e.message = runningLine ∧
      e.logstring = runningLine) :=
  ⟨by decide, C6_fallback_start (VaultMetrics.new 2) runningLine (by decide)⟩

/-! ## Activity classification (C7) -/

theorem mut_not_get (l : List Char)
    (h : (['M', 'u', 't'] : List Char).isPrefixOf l = true) :
    (['G', 'e', 't'] : List Char).isPrefixOf l = false := by
  cases l with
  | nil => simp [List.isPrefixOf] at h
  | cons c rest =>
    simp only [List.isPrefixOf, Bool.and_eq_true, beq_iff_eq] at h
    obtain ⟨hc, -⟩ := h
    subst hc
    simp [List.isPrefixOf]

theorem parse_activity_counts_get (m : VaultMetrics) (ae : ActivityEntry)
    (h : (("Get").toList).isPrefixOf ae.activity = true) :
    m.parse_activity_counts ae = m.count_get := by
  rw [List.isPrefixOf_iff_prefix] at h
  have h' : (['G', 'e', 't'] : List Char) <+: ae.activity := h
  unfold VaultMetrics.parse_activity_counts
  simp [h']

theorem parse_activity_counts_put (m : VaultMetrics) (ae : ActivityEntry)
    (h : (("Mut").toList).isPrefixOf ae.activity = true) :
    m.parse_activity_counts ae = m.count_put := by
  have hg : (("Get").toList).isPrefixOf ae.activity = false := mut_not_get _ h
  rw [List.isPrefixOf_iff_prefix] at h
  rw [← Bool.not_eq_true, List.isPrefixOf_iff_prefix] at hg
  have h' : (['M', 'u', 't'] : List Char) <+: ae.activity := h
  have hg' : ¬ (['G', 'e', 't'] : List Char) <+: ae.activity := hg
  unfold VaultMetrics.parse_activity_counts
  simp [h', hg']

theorem parse_activity_counts_other (m : VaultMetrics) (ae : ActivityEntry)
    (hg : (("Get").toList).isPrefixOf ae.activity = false)
    (hm : (("Mut").toList).isPrefixOf ae.activity = false) :
    m.parse_activity_counts ae = { m with activity_other := m.activity_other + 1 } := by
  rw [← Bool.not_eq_true, List.isPrefixOf_iff_prefix] at hg hm
  have hg' : ¬ (['G', 'e', 't'] : List Char) <+: ae.activity := hg
  have hm' : ¬ (['M', 'u', 't'] : List Char) <+: ae.activity := hm
  unfold VaultMetrics.parse_activity_counts
  simp [hg', hm']

theorem parse_activity_counts_frame (m : VaultMetrics) (ae : ActivityEntry) :
    (m.parse_activity_counts ae).activity_history = m.activity_history := by
  unfold VaultMetrics.parse_activity_counts VaultMetrics.count_get VaultMetrics.count_put
  split
  · rfl
  · split <;> rfl

theorem parse_data_response_found (m : VaultMetrics) (e : LogEntry) (pos rend : Nat)
    (hfind : findSubstr responsePattern e.logstring = some pos)
    (hcomma : findSubstr ((",").toList)
      (e.logstring.drop (pos + responsePattern.length)) = some rend)
    (hne : responseSlice e pos rend ≠ []) :
    m.parse_data_response e responsePattern =
      ({ m.parse_activity_counts (ActivityEntry.new e (responseSlice e pos rend)) with
          activity_history :=
            (m.parse_activity_counts
              (ActivityEntry.new e (responseSlice e pos rend))).activity_history
              ++ [ActivityEntry.new e (responseSlice e pos rend)]
          parser_output := ("vault activity: ").toList ++ responseSlice e pos rend },
        true) := by
  unfold responseSlice at hne
  unfold VaultMetrics.parse_data_response
  simp only [hfind, hcomma]
  rw [if_pos hne]
  rfl

/-- C7: for every decoded record containing the activity marker followed by a
non-empty label ending at the next comma: a label starting with `Get`
increments the gets counter by exactly 1 and the current (last) bucket of
every granularity of the gets timeline by exactly 1, touching nothing else;
a label starting with `Mut` does the same for the puts counter and timeline;
any other label increments only the `other` counter and no timeline.  In
every case the label is recorded in the activity history and the line counts
as processed. -/
theorem C7_activity_classification (m : VaultMetrics) (e : LogEntry) (pos rend : Nat)
    (hfind : findSubstr responsePattern e.logstring = some pos)
    (hcomma : findSubstr ((",").toList)
      (e.logstring.drop (pos + responsePattern.length)) = some rend)
    (hne : responseSlice e pos rend ≠ []) :
    ((("Get").toList).isPrefixOf (responseSlice e pos rend) = true →
      (m.parse_data_response e responsePattern).1.activity_gets = m.activity_gets + 1 ∧
      (m.parse_data_response e responsePattern).1.gets_timeline.bucket_sets =
        m.gets_timeline.bucket_sets.map
          (fun p => (p.1, { p.2 with buckets := incLast p.2.buckets })) ∧
      (m.parse_data_response e responsePattern).1.activity_puts = m.activity_puts ∧
      (m.parse_data_response e responsePattern).1.activity_other = m.activity_other ∧
      (m.parse_data_response e responsePattern).1.puts_timeline = m.puts_timeline ∧
      (m.parse_data_response e responsePattern).1.errors_timeline = m.errors_timeline) ∧
    ((("Mut").toList).isPrefixOf (responseSlice e pos rend) = true →
      (m.parse_data_response e responsePattern).1.activity_puts = m.activity_puts + 1 ∧
      (m.parse_data_response e responsePattern).1.puts_timeline.bucket_sets =
        m.puts_timeline.bucket_sets.map
          (fun p => (p.1, { p.2 with buckets := incLast p.2.buckets })) ∧
      (m.parse_data_response e responsePattern).1.activity_gets = m.activity_gets ∧
      (m.parse_data_response e responsePattern).1.activity_other = m.activity_other ∧
      (m.parse_data_response e responsePattern).1.gets_timeline = m.gets_timeline ∧
      (m.parse_data_response e responsePattern).1.errors_timeline = m.errors_timeline) ∧
    ((("Get").toList).isPrefixOf (responseSlice e pos rend) = false →
      (("Mut").toList).isPrefixOf (responseSlice e pos rend) = false →
      (m.parse_data_response e responsePattern).1.activity_other = m.activity_other + 1 ∧
      (m.parse_data_response e responsePattern).1.activity_gets = m.activity_gets ∧
      (m.parse_data_response e responsePattern).1.activity_puts = m.activity_puts ∧
      (m.parse_data_response e responsePattern).1.gets_timeline = m.gets_timeline ∧
      (m.parse_data_response e responsePattern).1.puts_timeline = m.puts_timeline ∧
      (m.parse_data_response e responsePattern).1.errors_timeline = m.errors_timeline) ∧
    (m.parse_data_response e responsePattern).1.activity_history =
      m.activity_history ++ [ActivityEntry.new e (responseSlice e pos rend)] ∧
    (m.parse_data_response e responsePattern).2 = true := by
  have hred := parse_data_response_found m e pos rend hfind hcomma hne
  refine ⟨?_, ?_, ?_, ?_, ?_⟩
  · intro hG
    have hc : m.parse_activity_counts (ActivityEntry.new e (responseSlice e pos rend))
        = m.count_get := parse_activity_counts_get _ _ hG
    rw [hred]
    simp only [hc]
    unfold VaultMetrics.count_get TimelineSet.increment_value
    refine ⟨?_, ?_, ?_, ?_, ?_, ?_⟩ <;> first | rfl | trivial
  · intro hM
    have hc : m.parse_activity_counts (ActivityEntry.new e (responseSlice e pos rend))
        = m.count_put := parse_activity_counts_put _ _ hM
    rw [hred]
    simp only [hc]
    unfold VaultMetrics.count_put TimelineSet.increment_value
    refine ⟨?_, ?_, ?_, ?_, ?_, ?_⟩ <;> first | rfl | trivial
  · intro hG hM
    have hc : m.parse_activity_counts (ActivityEntry.new e (responseSlice e pos rend))
        = { m with activity_other := m.activity_other + 1 } :=
      parse_activity_counts_other _ _ hG hM
    rw [hred]
    simp only [hc]
    refine ⟨?_, ?_, ?_, ?_, ?_, ?_⟩ <;> first | rfl | trivial
  · rw [hred]
    have hc := parse_activity_counts_frame m (ActivityEntry.new e (responseSlice e pos rend))
    simp only
    rw [hc]
  · rw [hred]

theorem C7_activity_classification_witness :
    findSubstr responsePattern c7Entry.logstring = some 47 ∧
    findSubstr ((",").toList)
      (c7Entry.logstring.drop (47 + responsePattern.length)) = some 10 ∧
    responseSlice c7Entry 47 10 ≠ [] ∧
    (("Get").toList).isPrefixOf (responseSlice c7Entry 47 10) = true ∧
    ((VaultMetrics.new 1).parse_data_response c7Entry responsePattern).1.activity_gets =
      (VaultMetrics.new 1).activity_gets + 1 :=
  ⟨by decide, by decide, by decide, by decide,
    ((C7_activity_classification (VaultMetrics.new 1) c7Entry 47 10
      (by decide) (by decide) (by decide)).1 (by decide)).1⟩

/-! ## Age-bracket provenance (C10) -/

theorem parse_usize_age (m : VaultMetrics) (pre content : List Char) :
    (m.parse_usize pre content).1.agebracket = m.agebracket := by
  unfold VaultMetrics.parse_usize
  split
  · split
    · rfl
    · rfl
  · rfl

theorem parse_word_age (m : VaultMetrics) (pre content : List Char) :
    (m.parse_word pre content).1.agebracket = m.agebracket := by
  unfold VaultMetrics.parse_word
  split
  · split
    · rfl
    · rfl
  · rfl

theorem parse_word_snd (m : VaultMetrics) (pre content : List Char) :
    (m.parse_word pre content).2 =
      if (findSubstr pre content).isSome = true then some (trimStart content)
      else none := by
  unfold VaultMetrics.parse_word rustSplitn1
  split
  · rename_i start heq
    simp [heq]
  · rename_i heq
    simp [heq]

theorem parse_word_snd_indep (m m' : VaultMetrics) (pre content : List Char) :
    (m.parse_word pre content).2 = (m'.parse_word pre content).2 := by
  rw [parse_word_snd, parse_word_snd]

theorem parse_activity_counts_age (m : VaultMetrics) (ae : ActivityEntry) :
    (m.parse_activity_counts ae).agebracket = m.agebracket := by
  unfold VaultMetrics.parse_activity_counts VaultMetrics.count_get VaultMetrics.count_put
  split
  · rfl
  · split <;> rfl

/-- C10: both at construction (`VaultMetrics::new`) and after every
`reset_metrics` call the age bracket is `Infant`, not `Unknown`; neither the
fallback start path nor activity counting can produce `Unknown`; and
`parse_states` yields `Unknown` (from a non-`Unknown` state) only when a
lifecycle-promotion pattern matched and the word the code extracted for the
stage is none of `Infant`/`Adult`/`Elder`. -/
theorem C10_agebracket_infant_unknown :
    (∀ n : Nat, (VaultMetrics.new n).agebracket = VaultAgebracket.Infant) ∧
    (∀ m : VaultMetrics, m.reset_metrics.agebracket = VaultAgebracket.Infant) ∧
    (∀ (m : VaultMetrics) (line : List Char),
      (m.parse_start line).1.agebracket = VaultAgebracket.Unknown →
        m.agebracket = VaultAgebracket.Unknown) ∧
    (∀ (m : VaultMetrics) (e : LogEntry) (pat : List Char),
      (m.parse_data_response e pat).1.agebracket = m.agebracket) ∧
    (∀ (m : VaultMetrics) (e : LogEntry),
      (m.parse_states e).1.agebracket = VaultAgebracket.Unknown →
        m.agebracket = VaultAgebracket.Unknown ∨
        (∃ w, ((m.parse_word (("Vault promoted to ").toList) e.logstring).2.or
            ((m.parse_word (("Initializing new Vault as ").toList) e.logstring).2))
            = some w ∧
          w ≠ ("Infant").toList ∧ w ≠ ("Adult").toList ∧ w ≠ ("Elder").toList)) := by
  refine ⟨fun n => rfl, fun m => rfl, ?_, ?_, ?_⟩
  · intro m line h
    unfold VaultMetrics.parse_start at h
    by_cases hp : (("Running safe-vault ").toList).isPrefixOf line = true
    · simp only [hp, if_true] at h
      exact absurd h (by simp [VaultMetrics.reset_metrics])
    · simp only [hp, if_false] at h
      exact h
  · intro m e pat
    unfold VaultMetrics.parse_data_response
    split
    · dsimp only
      split
      · split
        · exact parse_activity_counts_age m _
        · rfl
      · rfl
    · rfl
  · intro m e h
    unfold VaultMetrics.parse_states at h
    dsimp only at h
    rcases hE : m.parse_usize (("No. of Elders:").toList) e.logstring with ⟨mA, oE⟩
    rw [hE] at h
    have hAm : mA.agebracket = m.agebracket := by
      have hx := parse_usize_age m (("No. of Elders:").toList) e.logstring
      rw [hE] at hx
      exact hx
    cases oE with
    | some v =>
      left
      rw [← hAm]
      exact h
    | none =>
      dsimp only at h
      rcases hAd : mA.parse_usize (("No. of Adults:").toList) e.logstring with ⟨mB, oA⟩
      rw [hAd] at h
      have hBm : mB.agebracket = mA.agebracket := by
        have hx := parse_usize_age mA (("No. of Adults:").toList) e.logstring
        rw [hAd] at hx
        exact hx
      cases oA with
      | some v =>
        left
        rw [← hAm, ← hBm]
        exact h
      | none =>
        dsimp only at h
        rcases hW1 : mB.parse_word (("Vault promoted to ").toList) e.logstring with ⟨mC, w1⟩
        rw [hW1] at h
        dsimp only at h
        rcases hW2 : mC.parse_word (("Initializing new Vault as ").toList) e.logstring with ⟨mD, w2⟩
        rw [hW2] at h
        dsimp only at h
        have hCm : mC.agebracket = mB.agebracket := by
          have hx := parse_word_age mB (("Vault promoted to ").toList) e.logstring
          rw [hW1] at hx
          exact hx
        have hDm : mD.agebracket = mC.agebracket := by
          have hx := parse_word_age mC (("Initializing new Vault as ").toList) e.logstring
          rw [hW2] at hx
          exact hx
        have hsnd1 : (m.parse_word (("Vault promoted to ").toList) e.logstring).2 = w1 := by
          rw [parse_word_snd_indep m mB, hW1]
        have hsnd2 : (m.parse_word (("Initializing new Vault as ").toList) e.logstring).2 = w2 := by
          rw [parse_word_snd_indep m mC, hW2]
        cases how : w1.or w2 with
        | none =>
          rw [how] at h
          left
          rw [← hAm, ← hBm, ← hCm, ← hDm]
          exact h
        | some w =>
          rw [how] at h
          by_cases h1 : w = ("Infant").toList
          · simp [h1] at h
          · by_cases h2 : w = ("Adult").toList
            · simp [h1, h2] at h
            · by_cases h3 : w = ("Elder").toList
              · simp [h1, h2, h3] at h
              · right
                refine ⟨w, ?_, h1, h2, h3⟩
                rw [hsnd1, hsnd2, how]

theorem C10_agebracket_infant_unknown_witness :
    ((VaultMetrics.new 2).parse_states c10Entry).1.agebracket = VaultAgebracket.Unknown ∧
    ((VaultMetrics.new 2).agebracket = VaultAgebracket.Unknown ∨
      (∃ w, (((VaultMetrics.new 2).parse_word (("Vault promoted to ").toList)
            c10Entry.logstring).2.or
          (((VaultMetrics.new 2).parse_word (("Initializing new Vault as ").toList)
            c10Entry.logstring).2)) = some w ∧
        w ≠ ("Infant").toList ∧ w ≠ ("Adult").toList ∧ w ≠ ("Elder").toList)) :=
  ⟨by decide,
    C10_agebracket_infant_unknown.2.2.2.2 (VaultMetrics.new 2) c10Entry (by decide)⟩
